import Mathlib

/-!
Verification of the directory-tree explorer core of the manza markdown editor.

The definitions below are a shallow embedding of the TypeScript source:

- `src/components/FileExplorer/FileExplorer.tsx`: expansion state, children
  cache, click handling, drag-and-drop, sorting, rendering.
- `src/components/Layout/AppLayout.tsx`: navigation history.

React `useState` values become fields of explicit state records; each event
handler becomes a function from state (plus its event arguments) to state.
Handlers that `await` a Directory Service call are split at the suspension
point into a synchronous prefix and a resumption, so that interleavings of
handler invocations with pending fetches can be expressed.  JavaScript
strings are modelled as Lean `String`, with the string primitives the source
uses (`substring`/`lastIndexOf`, `toLowerCase`, `localeCompare`, `+`)
implemented structurally over the character list so that they evaluate by
kernel reduction; `localeCompare` is modelled as code-point lexicographic
comparison, which agrees with it on the ASCII names used here.
-/

/-- One file-system node as known to the tree: the `FileItem` interface of
`FileExplorer.tsx` (identity and metadata fields).  The optional `children`
prop is passed explicitly to the functions that read it, and the view-derived
`expanded`/`depth` fields live in `ExplorerState` / the render function. -/
structure FileItem where
  name : String
  path : String
  isDirectory : Bool
  isMarkdown : Bool := false
deriving DecidableEq, Repr

/-- One invocation of the Directory Service move/rename primitive
(the `rename_file_or_directory` command), with its two arguments. -/
structure MoveCall where
  oldPath : String
  newPath : String
deriving DecidableEq, Repr

/-- JS `path.substring(0, path.lastIndexOf('/'))`: everything strictly before
the last slash, or the empty string when there is no slash (JS `substring`
clamps the negative end index to 0). -/
def parentPath (p : String) : String :=
  ⟨((p.data.reverse.dropWhile (· ≠ '/')).drop 1).reverse⟩

/-- JS `path.substring(path.lastIndexOf('/') + 1)`: everything after the last
slash, or the whole string when there is no slash. -/
def baseName (p : String) : String :=
  ⟨(p.data.reverse.takeWhile (· ≠ '/')).reverse⟩

/-- JS `s.toLowerCase()`, character by character. -/
def strToLower (s : String) : String := ⟨s.data.map Char.toLower⟩

/-- Lexicographic three-way comparison of character lists, with the JS
comparator convention: negative / zero / positive. -/
def listCompare : List Char → List Char → Int
  | [], [] => 0
  | [], _ :: _ => -1
  | _ :: _, [] => 1
  | a :: as, b :: bs => if a < b then -1 else if b < a then 1 else listCompare as bs

/-- Model of JS `a.localeCompare(b)`: code-point lexicographic comparison. -/
def strCompare (s t : String) : Int := listCompare s.data t.data

/-- Whether `target` lies strictly inside the subtree rooted at `src`,
i.e. `src + "/"` is a prefix of `target`.  This is the descendant relation of
§4.3 legality rule 3; the source never computes it, which is what claims C2
and C9 probe. -/
def isDescendant (src target : String) : Bool :=
  (src.data ++ ['/']).isPrefixOf target.data

/-- The component-local state of `FileExplorer`: the `expandedFiles` set, the
`childrenCache` map, and the ephemeral drag state (`draggedItem`,
`dropTarget`).  The JS `Set<string>` is a duplicate-free list, the JS `Map`
an association list keyed by path. -/
structure ExplorerState where
  expandedFiles : List String
  childrenCache : List (String × List FileItem)
  draggedItem : Option FileItem := none
  dropTarget : Option String := none
deriving DecidableEq, Repr

/-- `childrenCache.get(path)` on the association-list model of the JS `Map`. -/
def cacheGet : List (String × List FileItem) → String → Option (List FileItem)
  | [], _ => none
  | (k, v) :: rest, p => if k = p then some v else cacheGet rest p

/-- `newCache.set(path, children)`: replace the entry in place if the key is
present, otherwise append it (JS `Map.set` keeps insertion order). -/
def cacheSet : List (String × List FileItem) → String → List FileItem →
    List (String × List FileItem)
  | [], p, v => [(p, v)]
  | (k, w) :: rest, p, v =>
      if k = p then (p, v) :: rest else (k, w) :: cacheSet rest p v

/-- `newExpanded.add(path)` on the duplicate-free-list model of the JS `Set`. -/
def addPath (l : List String) (p : String) : List String :=
  if p ∈ l then l else l ++ [p]

/-- `newExpanded.delete(path)` on the duplicate-free-list model of the JS
`Set`. -/
def removePath (l : List String) (p : String) : List String :=
  l.filter (fun q => decide (q ≠ p))

/-- The synchronous prefix of `handleFolderClick` (FileExplorer.tsx:102-149),
up to its only suspension point, the `await onFolderExpand(folder.path)`.
Returns the state after the prefix and whether a children fetch was issued
(in which case the state is returned unchanged: every `setState` in the
fetch branch runs only after the `await`).  `propsChildren` is the folder's
`children` prop (`folder.children ?? []`); `hasOnFolderExpand` is whether the
`onFolderExpand` callback is wired (it is, in `AppLayout`). -/
def handleFolderClickSync (s : ExplorerState) (folder : FileItem)
    (propsChildren : List FileItem) (hasOnFolderExpand : Bool) :
    ExplorerState × Bool :=
  if !folder.isDirectory then (s, false)
  else if folder.path ∈ s.expandedFiles then
    ({ s with expandedFiles := removePath s.expandedFiles folder.path }, false)
  else if (cacheGet s.childrenCache folder.path).isSome then
    ({ s with expandedFiles := addPath s.expandedFiles folder.path }, false)
  else if propsChildren ≠ [] then
    ({ s with
        childrenCache := cacheSet s.childrenCache folder.path propsChildren,
        expandedFiles := addPath s.expandedFiles folder.path }, false)
  else if hasOnFolderExpand then (s, true)
  else (s, false)

/-- The continuation of `handleFolderClick` after the awaited fetch settles
(FileExplorer.tsx:129-147).  `some children` is a resolved fetch: the cache
entry is written and the path expanded (`childrenToUse` is the array, truthy
even when empty).  `none` is a rejected fetch: the `catch` block logs to the
console and returns, leaving the state unchanged — in the assembled app this
branch is unreachable, because the only wired `onFolderExpand`
(`handleFolderExpand` below) never rejects. -/
def handleFolderClickResume (s : ExplorerState) (path : String)
    (result : Option (List FileItem)) : ExplorerState :=
  match result with
  | none => s
  | some cs =>
      { s with
          childrenCache := cacheSet s.childrenCache path cs,
          expandedFiles := addPath s.expandedFiles path }

/-- `handleFolderExpand` (AppLayout.tsx:364-382), the `onFolderExpand`
callback that `AppLayout` wires into `FileExplorer`.  The argument is the
Directory Service listing outcome (`none` models an `IOError` from
`get_directory_contents`).  The callback never rejects: on success it
resolves with the transformed entries, on failure its own `catch` calls
`setError(...)` — surfacing the error in the application's error banner —
and resolves with `[]`.  Returns the resolved child list and whether the
error was surfaced. -/
def handleFolderExpand (result : Option (List FileItem)) :
    List FileItem × Bool :=
  match result with
  | some items => (items, false)
  | none => ([], true)

/-- Number of children-fetch calls issued when `handleFolderClick(folder)` is
invoked twice in succession while the first invocation's fetch is still
pending: the second invocation runs its synchronous prefix against the state
left by the first prefix, because the first resumption has not run yet.  The
folder has no `children` prop and `onFolderExpand` is wired, as for any
not-yet-listed directory in `AppLayout`. -/
def fetchesWhenToggledTwicePending (s : ExplorerState) (folder : FileItem) : Nat :=
  let r1 := handleFolderClickSync s folder [] true
  let r2 := handleFolderClickSync r1.1 folder [] true
  (if r1.2 then 1 else 0) + (if r2.2 then 1 else 0)

/-- The navigation-history slice of `AppLayout`'s state:
`navigationHistory` (`useState<string[]>([])`) and `navigationIndex`
(`useState<number>(-1)`). -/
structure NavState where
  navigationHistory : List String
  navigationIndex : Int
deriving DecidableEq, Repr

/-- The initial navigation state: empty stack, index -1. -/
def navInit : NavState := ⟨[], -1⟩

/-- `addToNavigationHistory` (AppLayout.tsx:204-216): truncate the stack to
`navigationIndex + 1` entries; if the last retained entry differs from
`path`, append `path` and move the index to the new last position, otherwise
leave the state untouched (the untruncated previous stack is returned). -/
def addToNavigationHistory (s : NavState) (path : String) : NavState :=
  let newHistory := s.navigationHistory.take (s.navigationIndex + 1).toNat
  if newHistory.getLast? ≠ some path then
    { navigationHistory := newHistory ++ [path],
      navigationIndex := (newHistory.length : Int) }
  else s

/-- `handleNavigateBack` (AppLayout.tsx:219-248) on the happy path (the
directory listing succeeds): when `navigationIndex > 0`, decrement the index
and navigate to the stack entry there; otherwise do nothing.  The returned
path is the one passed to `setCurrentDirectoryPath`. -/
def handleNavigateBack (s : NavState) : NavState × Option String :=
  if 0 < s.navigationIndex then
    ({ s with navigationIndex := s.navigationIndex - 1 },
      s.navigationHistory.get? (s.navigationIndex - 1).toNat)
  else (s, none)

/-- `handleNavigateForward` (AppLayout.tsx:251-280) on the happy path: when
`navigationIndex < navigationHistory.length - 1`, increment the index and
navigate to the stack entry there; otherwise do nothing. -/
def handleNavigateForward (s : NavState) : NavState × Option String :=
  if s.navigationIndex < (s.navigationHistory.length : Int) - 1 then
    ({ s with navigationIndex := s.navigationIndex + 1 },
      s.navigationHistory.get? (s.navigationIndex + 1).toNat)
  else (s, none)

/-- The invariant of §3: whenever the stack is non-empty,
`0 <= cursor < length(stack)`. -/
def NavInv (s : NavState) : Prop :=
  s.navigationHistory ≠ [] →
    0 ≤ s.navigationIndex ∧ s.navigationIndex < (s.navigationHistory.length : Int)

/-- The sort comparator of `sortedFiles` (FileExplorer.tsx:512-520):
directories before files, otherwise
`a.name.toLowerCase().localeCompare(b.name.toLowerCase())`. -/
def fileCompare (a b : FileItem) : Int :=
  if a.isDirectory && !b.isDirectory then -1
  else if !a.isDirectory && b.isDirectory then 1
  else strCompare (strToLower a.name) (strToLower b.name)

/-- The non-strict order induced by the comparator, i.e. `a` may appear
before `b` in the sorted output. -/
def fileLe (a b : FileItem) : Prop := fileCompare a b ≤ 0

/-- Stable insertion of one element into an already sorted list: the new
element goes after every element it compares equal to. -/
def insertSorted (x : FileItem) : List FileItem → List FileItem
  | [] => [x]
  | y :: ys => if fileCompare x y < 0 then x :: y :: ys else y :: insertSorted x ys

/-- `const sortedFiles = [...files].sort(comparator)`
(FileExplorer.tsx:511-520), modelled as a stable insertion sort:
`Array.prototype.sort` is stable (ES2019), and a stable sort for a total
preorder has a unique result, so any stable model is behaviour-identical. -/
def sortedFiles (files : List FileItem) : List FileItem :=
  files.foldl (fun acc f => insertSorted f acc) []

/-- The display order produced by `renderFileItem` (FileExplorer.tsx:575-678)
for one item: the item itself, then, when the item is expanded and its cache
entry (`childrenCache.get(file.path) || []`) is non-empty, its cached
children recursively and in cache order.  The `fuel` bound makes the
recursion structural; with fuel larger than the tree depth it never runs
out. -/
def renderOrder (s : ExplorerState) : Nat → FileItem → List String
  | 0, f => [f.path]
  | fuel + 1, f =>
      let children := (cacheGet s.childrenCache f.path).getD []
      if f.path ∈ s.expandedFiles ∧ children ≠ [] then
        f.path :: (children.map (renderOrder s fuel)).flatten
      else [f.path]

/-- The full displayed order (FileExplorer.tsx:749):
`sortedFiles.map((file) => renderFileItem(file))`. -/
def displayedOrder (s : ExplorerState) (files : List FileItem) (fuel : Nat) :
    List String :=
  ((sortedFiles files).map (renderOrder s fuel)).flatten

/-- `handleDragStart` (FileExplorer.tsx:292-297): record the dragged Entry. -/
def handleDragStart (s : ExplorerState) (file : FileItem) : ExplorerState :=
  { s with draggedItem := some file }

/-- `handleDragOver` (FileExplorer.tsx:299-321): files never become the drop
target (the event bubbles on); a directory equal to the dragged source's path
never becomes the drop target; any other directory does.  No other check is
performed. -/
def handleDragOver (s : ExplorerState) (file : FileItem) : ExplorerState :=
  if !file.isDirectory then s
  else
    match s.draggedItem with
    | some d => if d.path = file.path then s else { s with dropTarget := some file.path }
    | none => { s with dropTarget := some file.path }

/-- `handleDragLeave` (FileExplorer.tsx:323-329): clear the drop target only
when the element itself is being left (`e.currentTarget === e.target`),
not when entering a child. -/
def handleDragLeave (s : ExplorerState) (leavingSelf : Bool) : ExplorerState :=
  if leavingSelf then { s with dropTarget := none } else s

/-- `handleDragOverRoot` (FileExplorer.tsx:473-483): with a drag in progress,
hovering the background sets the sentinel root drop target. -/
def handleDragOverRoot (s : ExplorerState) : ExplorerState :=
  match s.draggedItem with
  | none => s
  | some _ => { s with dropTarget := some "__root__" }

/-- The outcome of one drop/drag-end handler invocation: the state it leaves
behind, the Directory Service move call it issued (if any), the directories
it re-fetched through `reloadExpandedFolder`, whether it invoked the
`onRefresh` callback (re-listing the current root directory), and whether it
let the event bubble to the root drop handler. -/
structure DropOutcome where
  state : ExplorerState
  call : Option MoveCall := none
  refreshedFolders : List String := []
  rootRefreshed : Bool := false
  bubbles : Bool := false
deriving DecidableEq, Repr

/-- `reloadExpandedFolder` (FileExplorer.tsx:82-100): re-fetch a folder's
children and overwrite its cache entry, but only when the folder is
expanded.  `fetch` is the Directory Service listing (assumed to resolve;
a rejection is only logged).  Returns the new state and the list of paths
re-fetched (empty or a singleton). -/
def reloadExpandedFolder (s : ExplorerState) (folderPath : String)
    (fetch : String → List FileItem) : ExplorerState × List String :=
  if folderPath ∈ s.expandedFiles then
    ({ s with childrenCache := cacheSet s.childrenCache folderPath (fetch folderPath) },
      [folderPath])
  else (s, [])

/-- `handleDrop` (FileExplorer.tsx:331-368), the drop event on an Entry row.
A non-directory target only clears the drop target and lets the event bubble
to the root handler.  Otherwise, with no dragged item or with the target
equal to the source, nothing further happens.  Otherwise the move call is
issued; `succeed` tells how it settles — on success `onRefresh` runs and the
dragged item is cleared, on failure the `catch` only logs.  Note that no
`reloadExpandedFolder` call occurs on this path. -/
def handleDrop (s : ExplorerState) (targetFolder : FileItem) (succeed : Bool) :
    DropOutcome :=
  if !targetFolder.isDirectory then
    { state := { s with dropTarget := none }, bubbles := true }
  else
    let s1 := { s with dropTarget := none }
    match s.draggedItem with
    | none => { state := s1 }
    | some d =>
        if d.path = targetFolder.path then { state := s1 }
        else
          let call := MoveCall.mk d.path (targetFolder.path ++ "/" ++ baseName d.path)
          if succeed then
            { state := { s1 with draggedItem := none }, call := some call,
              rootRefreshed := true }
          else { state := s1, call := some call }

/-- Clear both ephemeral drag fields, as the tail of `handleDragEnd` does. -/
def clearDrag (s : ExplorerState) : ExplorerState :=
  { s with draggedItem := none, dropTarget := none }

/-- `handleDragEnd` (FileExplorer.tsx:370-439): the fallback that runs on the
source element when the drag gesture ends.  If a drop target is still set
together with a dragged item, the move is performed here: to the root for
the `__root__` sentinel (skipped when the item already sits in the root),
else to the target folder looked up in `files` (skipped when absent or not a
directory).  On success the source's former parent — and, for a folder
target, the destination — are reloaded via `reloadExpandedFolder`, and
`onRefresh` re-lists the current directory.  Both drag fields are cleared on
every path. -/
def handleDragEnd (s : ExplorerState) (rootPath : Option String)
    (files : List FileItem) (fetch : String → List FileItem) (succeed : Bool) :
    DropOutcome :=
  match s.dropTarget, s.draggedItem with
  | some t, some d =>
      if t = "__root__" then
        match rootPath with
        | none => { state := clearDrag s }
        | some root =>
            if parentPath d.path = root then { state := clearDrag s }
            else
              let call := MoveCall.mk d.path (root ++ "/" ++ baseName d.path)
              if succeed then
                let r1 := reloadExpandedFolder s (parentPath d.path) fetch
                { state := clearDrag r1.1, call := some call,
                  refreshedFolders := r1.2, rootRefreshed := true }
              else { state := clearDrag s, call := some call }
      else
        match files.find? (fun f => decide (f.path = t)) with
        | none => { state := clearDrag s }
        | some tf =>
            if !tf.isDirectory then { state := clearDrag s }
            else
              let call := MoveCall.mk d.path (tf.path ++ "/" ++ baseName d.path)
              if succeed then
                let r1 := reloadExpandedFolder s (parentPath d.path) fetch
                let r2 := reloadExpandedFolder r1.1 tf.path fetch
                { state := clearDrag r2.1, call := some call,
                  refreshedFolders := r1.2 ++ r2.2, rootRefreshed := true }
              else { state := clearDrag s, call := some call }
  | _, _ => { state := clearDrag s }

/-- `handleDropOnRoot` (FileExplorer.tsx:442-471), the drop event on the file
list background: clear the drop target; do nothing further without a dragged
item or root path, or when the dragged item's parent already is the root
(note the dragged item is left set on this path — the subsequent `dragend`
clears it); otherwise issue the move into the root, and on success run
`onRefresh` and clear the dragged item. -/
def handleDropOnRoot (s : ExplorerState) (rootPath : Option String)
    (succeed : Bool) : DropOutcome :=
  let s1 := { s with dropTarget := none }
  match s.draggedItem, rootPath with
  | some d, some root =>
      if parentPath d.path = root then { state := s1 }
      else
        let call := MoveCall.mk d.path (root ++ "/" ++ baseName d.path)
        if succeed then
          { state := { s1 with draggedItem := none }, call := some call,
            rootRefreshed := true }
        else { state := s1, call := some call }
  | _, _ => { state := s1 }

/-- The raw pointer events the Interaction Dispatcher consumes on an Entry
row, plus the deferral-timer expiry. -/
inductive ClickEvent where
  | click (f : FileItem)
  | dblclick (f : FileItem)
  | contextmenu (f : FileItem)
  | timerFire
deriving DecidableEq, Repr

/-- The semantic actions of §4.2: `toggle-folder` / `select-file` fire from
the deferred single click, `navigate-into` from a double click on a
directory, `open-context-menu` from a right click. -/
inductive SemAction where
  | toggleFolder (path : String)
  | selectFile (path : String)
  | navigateInto (path : String)
  | openContextMenu (path : String)
deriving DecidableEq, Repr

/-- One step of the click dispatcher.  The state is `clickTimeoutRef`
abstracted to the Entry whose single-click action is pending (`none` when no
timer runs).  `click f` is `handleItemClick` (FileExplorer.tsx:169-185):
cancel any pending timer, start a new one for `f`, fire nothing yet.
`dblclick f` is `handleItemDoubleClick` (186-198): cancel the pending timer
and fire `navigate-into` for directories.  `timerFire` is the 250ms timeout
callback: fire `toggle-folder` or `select-file` for the pending Entry.
`contextmenu f` is the `onContextMenu` prop (592-597): it opens the menu and
does not touch the timer.  Returns the new pending state and the actions
fired by the step. -/
def dispatchStep (pending : Option FileItem) :
    ClickEvent → Option FileItem × List SemAction
  | ClickEvent.click f => (some f, [])
  | ClickEvent.dblclick f =>
      (none, if f.isDirectory then [SemAction.navigateInto f.path] else [])
  | ClickEvent.contextmenu f => (pending, [SemAction.openContextMenu f.path])
  | ClickEvent.timerFire =>
      match pending with
      | none => (none, [])
      | some f =>
          (none,
            [if f.isDirectory then SemAction.toggleFolder f.path
             else SemAction.selectFile f.path])

/-- Run the dispatcher over an event sequence, collecting the actions fired. -/
def dispatchRun (pending : Option FileItem) :
    List ClickEvent → Option FileItem × List SemAction
  | [] => (pending, [])
  | e :: es =>
      let r1 := dispatchStep pending e
      let r2 := dispatchRun r1.1 es
      (r2.1, r1.2 ++ r2.2)

/-- The concrete entry list of the §8 sorting test:
`[{b.md,file},{A,dir},{z.md,file},{a,dir}]`. -/
def exampleEntries : List FileItem :=
  [⟨"b.md", "/e/b.md", false, true⟩, ⟨"A", "/e/A", true, false⟩,
   ⟨"z.md", "/e/z.md", false, true⟩, ⟨"a", "/e/a", true, false⟩]

/-- Concrete directory Entry used by the expansion scenarios: a directory
`/r/D` that has never been listed. -/
def dirD : FileItem := ⟨"D", "/r/D", true, false⟩

/-- Concrete empty explorer state: nothing expanded, nothing cached. -/
def emptyExplorer : ExplorerState := { expandedFiles := [], childrenCache := [] }

/-- Concrete directory Entry `/root/a` used by the drop-legality scenarios. -/
def dirA : FileItem := ⟨"a", "/root/a", true, false⟩

/-- Concrete directory Entry `/root/a/b`, a descendant of `dirA`. -/
def descB : FileItem := ⟨"b", "/root/a/b", true, false⟩

/-- Concrete state with `dirA` being dragged. -/
def dragAState : ExplorerState :=
  { expandedFiles := [], childrenCache := [], draggedItem := some dirA }

/-- Concrete state with `dirA` being dragged and its descendant `/root/a/b`
already marked as drop target. -/
def dragADropB : ExplorerState :=
  { expandedFiles := [], childrenCache := [], draggedItem := some dirA,
    dropTarget := some "/root/a/b" }

/-- Concrete file Entry cached as first child of `/r/d`. -/
def fileZ : FileItem := ⟨"z.md", "/r/d/z.md", false, true⟩

/-- Concrete directory Entry cached as second child of `/r/d`. -/
def dirUpperA : FileItem := ⟨"A", "/r/d/A", true, false⟩

/-- Concrete directory Entry `/r/d` whose cached children are out of policy
order. -/
def dirSmallD : FileItem := ⟨"d", "/r/d", true, false⟩

/-- Concrete state where `/r/d` is expanded with unsorted cached children. -/
def unsortedCacheState : ExplorerState :=
  { expandedFiles := ["/r/d"], childrenCache := [("/r/d", [fileZ, dirUpperA])] }

/-- Concrete file Entry `/r/sub/x.md` whose parent directory is expanded. -/
def fileSubX : FileItem := ⟨"x.md", "/r/sub/x.md", false, true⟩

/-- Concrete destination directory Entry `/r/dst`, expanded. -/
def dirDst : FileItem := ⟨"dst", "/r/dst", true, false⟩

/-- Concrete state dragging `/r/sub/x.md` with `/r/dst` as the drop target,
both `/r/sub` and `/r/dst` expanded. -/
def dragMoveState : ExplorerState :=
  { expandedFiles := ["/r/sub", "/r/dst"], childrenCache := [],
    draggedItem := some fileSubX, dropTarget := some "/r/dst" }

/-- Concrete child Entry cached under `/r/D` for the collapse/re-expand
scenario. -/
def childC : FileItem := ⟨"c.md", "/r/D/c.md", false, true⟩

/-- Concrete state with `/r/D` expanded and its children cached. -/
def cachedExpandedState : ExplorerState :=
  { expandedFiles := ["/r/D"], childrenCache := [("/r/D", [childC])] }

/-- Concrete file Entry `/r/y.md` sitting directly in the root `/r`. -/
def fileRootY : FileItem := ⟨"y.md", "/r/y.md", false, true⟩

/-- Concrete state dragging `/r/y.md`, hovering the background (sentinel
root drop target), as when releasing a root-level item over the file-list
background. -/
def dragRootY : ExplorerState :=
  { expandedFiles := [], childrenCache := [], draggedItem := some fileRootY,
    dropTarget := some "__root__" }

/-- Reversing the arguments of `listCompare` negates the result. -/
theorem listCompare_swap (as bs : List Char) : listCompare bs as = - listCompare as bs := by
  induction as generalizing bs with
  | nil => cases bs <;> simp [listCompare]
  | cons a as ih =>
    cases bs with
    | nil => simp [listCompare]
    | cons b bs =>
      simp only [listCompare]
      rcases lt_trichotomy a b with h | h | h
      · simp [h, not_lt.mpr (le_of_lt h), lt_asymm h]
      · subst h; simp [lt_irrefl, ih]
      · simp [h, not_lt.mpr (le_of_lt h), lt_asymm h]

/-- Transitivity of the non-strict order induced by `listCompare`. -/
theorem listCompareLeTrans (as bs cs : List Char)
    (h1 : listCompare as bs ≤ 0) (h2 : listCompare bs cs ≤ 0) :
    listCompare as cs ≤ 0 := by
  induction as generalizing bs cs with
  | nil => cases cs <;> simp [listCompare]
  | cons a as ih =>
    cases bs with
    | nil => simp [listCompare] at h1
    | cons b bs =>
      cases cs with
      | nil => simp [listCompare] at h2
      | cons c cs =>
        simp only [listCompare] at h1 h2 ⊢
        by_cases hab : a < b
        · by_cases hbc : b < c
          · simp [lt_trans hab hbc]
          · by_cases hcb : c < b
            · rw [if_neg hbc, if_pos hcb] at h2; omega
            · have hbc2 : b = c := le_antisymm (le_of_not_lt hcb) (le_of_not_lt hbc)
              subst hbc2
              simp [hab]
        · by_cases hba : b < a
          · rw [if_neg hab, if_pos hba] at h1; omega
          · have hab2 : a = b := le_antisymm (le_of_not_lt hba) (le_of_not_lt hab)
            subst hab2
            rw [if_neg hab, if_neg hba] at h1
            by_cases hac : a < c
            · simp [hac]
            · by_cases hca : c < a
              · rw [if_neg hac, if_pos hca] at h2; omega
              · have hac2 : a = c := le_antisymm (le_of_not_lt hca) (le_of_not_lt hac)
                subst hac2
                rw [if_neg hac, if_neg hca] at h2 ⊢
                exact ih bs cs h1 h2

/-- Totality of the comparator order: a non-negative comparison flips to a
non-positive one. -/
theorem fileCompare_flip (a b : FileItem) (h : 0 ≤ fileCompare a b) :
    fileCompare b a ≤ 0 := by
  cases ha : a.isDirectory <;> cases hb : b.isDirectory <;>
    simp [fileCompare, ha, hb, strCompare] at h ⊢ <;>
    rw [listCompare_swap] <;> omega

/-- Transitivity of `fileLe`. -/
theorem fileLeTrans (a b c : FileItem) (h1 : fileLe a b) (h2 : fileLe b c) :
    fileLe a c := by
  unfold fileLe fileCompare at h1 h2 ⊢
  cases ha : a.isDirectory <;> cases hb : b.isDirectory <;> cases hc : c.isDirectory <;>
    simp [ha, hb, hc, strCompare] at h1 h2 ⊢ <;>
    first
      | omega
      | exact listCompareLeTrans _ _ _ h1 h2

/-- Membership in an insertion. -/
theorem mem_insertSorted (x z : FileItem) (l : List FileItem) :
    z ∈ insertSorted x l ↔ z = x ∨ z ∈ l := by
  induction l with
  | nil => simp [insertSorted]
  | cons y ys ih =>
    simp only [insertSorted]
    by_cases hxy : fileCompare x y < 0
    · simp [hxy]
    · simp only [if_neg hxy, List.mem_cons, ih]
      tauto

/-- Inserting into a list that is pairwise `fileLe`-ordered preserves the
ordering. -/
theorem pairwise_insertSorted (x : FileItem) (l : List FileItem)
    (h : l.Pairwise fileLe) : (insertSorted x l).Pairwise fileLe := by
  induction l with
  | nil => simp [insertSorted]
  | cons y ys ih =>
    rcases List.pairwise_cons.mp h with ⟨hy, hys⟩
    simp only [insertSorted]
    by_cases hxy : fileCompare x y < 0
    · rw [if_pos hxy]
      refine List.pairwise_cons.mpr ⟨?_, h⟩
      intro z hz
      rcases List.mem_cons.mp hz with rfl | hz
      · exact le_of_lt hxy
      · exact fileLeTrans x y z (le_of_lt hxy) (hy z hz)
    · rw [if_neg hxy]
      refine List.pairwise_cons.mpr ⟨?_, ih hys⟩
      intro z hz
      rcases (mem_insertSorted x z ys).mp hz with heq | hz
      · subst heq; exact fileCompare_flip _ y (by omega)
      · exact hy z hz

/-- An insertion is a permutation of consing. -/
theorem perm_insertSorted (x : FileItem) (l : List FileItem) :
    List.Perm (insertSorted x l) (x :: l) := by
  induction l with
  | nil => exact List.Perm.refl _
  | cons y ys ih =>
    simp only [insertSorted]
    by_cases hxy : fileCompare x y < 0
    · rw [if_pos hxy]
    · rw [if_neg hxy]
      exact (ih.cons y).trans (List.Perm.swap x y ys)

/-- The insertion-sort fold keeps the accumulated list pairwise ordered. -/
theorem pairwise_sortFold (l : List FileItem) :
    ∀ acc : List FileItem, acc.Pairwise fileLe →
      (l.foldl (fun a f => insertSorted f a) acc).Pairwise fileLe := by
  induction l with
  | nil => intro acc h; exact h
  | cons f fs ih =>
    intro acc h
    exact ih (insertSorted f acc) (pairwise_insertSorted f acc h)

/-- The output of `sortedFiles` is pairwise ordered by the comparator. -/
theorem pairwise_sortedFiles (files : List FileItem) :
    (sortedFiles files).Pairwise fileLe :=
  pairwise_sortFold files [] (List.Pairwise.nil)

/-- The insertion-sort fold permutes the accumulator followed by the input. -/
theorem sortFold_perm (l : List FileItem) :
    ∀ acc : List FileItem,
      List.Perm (l.foldl (fun a f => insertSorted f a) acc) (acc ++ l) := by
  induction l with
  | nil => intro acc; simp
  | cons f fs ih =>
    intro acc
    refine (ih (insertSorted f acc)).trans ?_
    refine (List.Perm.append_right fs (perm_insertSorted f acc)).trans ?_
    exact List.perm_middle.symm

/-- `sortedFiles` permutes its input. -/
theorem sortedFiles_perm (files : List FileItem) :
    List.Perm (sortedFiles files) files := by
  simpa using sortFold_perm files []

/-- The comparator order implies the §4.1 display policy: directories come
before files, and inside one group the lowercased names are in lexicographic
order. -/
theorem fileLe_policy (a b : FileItem) (h : fileLe a b) :
    (a.isDirectory = true ∧ b.isDirectory = false) ∨
      (a.isDirectory = b.isDirectory ∧
        strCompare (strToLower a.name) (strToLower b.name) ≤ 0) := by
  unfold fileLe fileCompare at h
  cases ha : a.isDirectory <;> cases hb : b.isDirectory <;>
    simp [ha, hb] at h ⊢ <;> first | omega | exact h

/-- The last entry of `take (n+1)` is the element at index `n`. -/
theorem getLast_take_succ (l : List String) (n : Nat) (p : String)
    (h : l.get? n = some p) : (l.take (n + 1)).getLast? = some p := by
  induction l generalizing n with
  | nil => simp at h
  | cons a l ih =>
    cases n with
    | zero => simp_all
    | succ n =>
      simp only [List.get?_cons_succ] at h
      have hlen : n < l.length := by
        by_contra hge
        rw [List.get?_eq_none.mpr (by omega)] at h
        exact Option.noConfusion h
      have hne : l.take (n + 1) ≠ [] := by
        apply List.ne_nil_of_length_pos
        rw [List.length_take]
        omega
      rcases List.exists_cons_of_ne_nil hne with ⟨hd, tl, heq⟩
      rw [List.take_succ_cons, heq, List.getLast?_cons_cons, ← heq]
      exact ih n h

/-- C3: starting from empty navigation history, visit(A), visit(B), visit(C)
then back() navigates to B, back() to A, forward() to B; a subsequent
visit(D) truncates the forward portion so that forward() returns none.
Visiting the path already at the cursor is a no-op, and `0 <= cursor <
length(stack)` holds for non-empty stacks after every visit/back/forward
step. -/
theorem C3_navigation_history :
    (addToNavigationHistory navInit "A" = ⟨["A"], 0⟩ ∧
     addToNavigationHistory ⟨["A"], 0⟩ "B" = ⟨["A", "B"], 1⟩ ∧
     addToNavigationHistory ⟨["A", "B"], 1⟩ "C" = ⟨["A", "B", "C"], 2⟩ ∧
     handleNavigateBack ⟨["A", "B", "C"], 2⟩ = (⟨["A", "B", "C"], 1⟩, some "B") ∧
     handleNavigateBack ⟨["A", "B", "C"], 1⟩ = (⟨["A", "B", "C"], 0⟩, some "A") ∧
     handleNavigateForward ⟨["A", "B", "C"], 0⟩ = (⟨["A", "B", "C"], 1⟩, some "B") ∧
     addToNavigationHistory ⟨["A", "B", "C"], 1⟩ "D" = ⟨["A", "B", "D"], 2⟩ ∧
     handleNavigateForward ⟨["A", "B", "D"], 2⟩ = (⟨["A", "B", "D"], 2⟩, none)) ∧
    (∀ (s : NavState) (p : String), 0 ≤ s.navigationIndex →
        s.navigationHistory.get? s.navigationIndex.toNat = some p →
        addToNavigationHistory s p = s) ∧
    (∀ (s : NavState) (p : String), NavInv s → NavInv (addToNavigationHistory s p)) ∧
    (∀ s : NavState, NavInv s → NavInv (handleNavigateBack s).1) ∧
    (∀ s : NavState, NavInv s → NavInv (handleNavigateForward s).1) := by
  refine ⟨by decide, ?_, ?_, ?_, ?_⟩
  · intro s p h0 hget
    have ht : (s.navigationIndex + 1).toNat = s.navigationIndex.toNat + 1 := by omega
    have hlast := getLast_take_succ s.navigationHistory s.navigationIndex.toNat p hget
    simp [addToNavigationHistory, ht, hlast]
  · intro s p _
    simp only [addToNavigationHistory]
    split_ifs with h
    · intro _
      simp only [List.length_append, List.length_take, List.length_cons]
      constructor
      · exact Int.ofNat_nonneg _
      · omega
    · intro hne
      exact ‹NavInv s› hne
  · intro s hinv
    simp only [handleNavigateBack]
    split_ifs with h
    · intro hne
      have h2 := hinv hne
      dsimp only at h2 ⊢
      omega
    · exact hinv
  · intro s hinv
    simp only [handleNavigateForward]
    split_ifs with h
    · intro hne
      have h2 := hinv hne
      dsimp only at h2 ⊢
      omega
    · exact hinv

/-- Witness for C3: the no-op and invariant parts applied at concrete
inputs. -/
theorem C3_witness :
    addToNavigationHistory ⟨["A"], 0⟩ "A" = ⟨["A"], 0⟩ ∧
    NavInv (addToNavigationHistory ⟨["A"], 0⟩ "B") :=
  ⟨C3_navigation_history.2.1 ⟨["A"], 0⟩ "A" (by decide) (by decide),
   C3_navigation_history.2.2.1 ⟨["A"], 0⟩ "B"
     (fun _ => ⟨by decide, by decide⟩)⟩

/-- Deleting a path from the expanded set removes it. -/
theorem not_mem_removePath (l : List String) (p : String) : p ∉ removePath l p := by
  simp [removePath]

/-- Adding a path to the expanded set makes it a member. -/
theorem mem_addPath_self (l : List String) (p : String) : p ∈ addPath l p := by
  by_cases h : p ∈ l <;> simp [addPath, h]

/-- C4: toggling an expanded directory whose children are cached removes it
from the expanded set without touching the children cache and issues no
fetch, and toggling it again re-expands it from the cache, again with no
fetch and no cache change. -/
theorem C4_collapse_reexpand_cached (s : ExplorerState) (folder : FileItem)
    (props cs : List FileItem)
    (hdir : folder.isDirectory = true)
    (hexp : folder.path ∈ s.expandedFiles)
    (hcache : cacheGet s.childrenCache folder.path = some cs) :
    (handleFolderClickSync s folder props true).2 = false ∧
    (handleFolderClickSync s folder props true).1.childrenCache = s.childrenCache ∧
    folder.path ∉ (handleFolderClickSync s folder props true).1.expandedFiles ∧
    (handleFolderClickSync (handleFolderClickSync s folder props true).1
        folder props true).2 = false ∧
    folder.path ∈ (handleFolderClickSync (handleFolderClickSync s folder props true).1
        folder props true).1.expandedFiles ∧
    (handleFolderClickSync (handleFolderClickSync s folder props true).1
        folder props true).1.childrenCache = s.childrenCache := by
  have h1 : handleFolderClickSync s folder props true =
      ({ s with expandedFiles := removePath s.expandedFiles folder.path }, false) := by
    simp [handleFolderClickSync, hdir, hexp]
  have hnm : folder.path ∉ removePath s.expandedFiles folder.path :=
    not_mem_removePath _ _
  have h2 : handleFolderClickSync
      { s with expandedFiles := removePath s.expandedFiles folder.path }
      folder props true =
      ({ s with expandedFiles :=
          addPath (removePath s.expandedFiles folder.path) folder.path }, false) := by
    simp [handleFolderClickSync, hdir, hnm, hcache]
  rw [h1, h2]
  exact ⟨rfl, rfl, hnm, rfl, mem_addPath_self _ _, rfl⟩

/-- Witness for C4: the collapse/re-expand round trip on the concrete state
with `/r/D` expanded and cached. -/
theorem C4_witness :
    (handleFolderClickSync cachedExpandedState dirD [] true).2 = false ∧
    (handleFolderClickSync cachedExpandedState dirD [] true).1.childrenCache =
      cachedExpandedState.childrenCache ∧
    dirD.path ∉ (handleFolderClickSync cachedExpandedState dirD [] true).1.expandedFiles ∧
    (handleFolderClickSync (handleFolderClickSync cachedExpandedState dirD [] true).1
        dirD [] true).2 = false ∧
    dirD.path ∈ (handleFolderClickSync
        (handleFolderClickSync cachedExpandedState dirD [] true).1
        dirD [] true).1.expandedFiles ∧
    (handleFolderClickSync (handleFolderClickSync cachedExpandedState dirD [] true).1
        dirD [] true).1.childrenCache = cachedExpandedState.childrenCache :=
  C4_collapse_reexpand_cached cachedExpandedState dirD [] [childC]
    (by decide) (by decide) (by decide)

/-- C1 counterexample: for the never-listed directory `/r/D`, two
`handleFolderClick` expand requests issued in succession while the first
fetch is still pending issue two children-fetch calls, not exactly one. -/
theorem C1_counterexample :
    fetchesWhenToggledTwicePending emptyExplorer dirD = 2 ∧
    fetchesWhenToggledTwicePending emptyExplorer dirD ≠ 1 := by
  decide

/-- C1 (amended): for every uncached, unexpanded directory with no
`children` prop, two toggle expand requests in succession while the first
fetch is pending issue exactly two children-fetch calls — one per request:
`handleFolderClick` has no in-flight guard, and the cache entry and expanded
flag that would deduplicate are only written after the fetch resolves. -/
theorem C1_pending_toggles_fetch_twice (s : ExplorerState) (folder : FileItem)
    (hdir : folder.isDirectory = true)
    (hnexp : folder.path ∉ s.expandedFiles)
    (hnc : cacheGet s.childrenCache folder.path = none) :
    fetchesWhenToggledTwicePending s folder = 2 := by
  have h1 : handleFolderClickSync s folder [] true = (s, true) := by
    simp [handleFolderClickSync, hdir, hnexp, hnc]
  simp [fetchesWhenToggledTwicePending, h1]

/-- Witness for C1's amended statement at the concrete empty state. -/
theorem C1_witness :
    fetchesWhenToggledTwicePending emptyExplorer dirD = 2 :=
  C1_pending_toggles_fetch_twice emptyExplorer dirD (by decide) (by decide) (by decide)

/-- Writing a cache entry makes it retrievable. -/
theorem cacheGet_cacheSet (c : List (String × List FileItem)) (p : String)
    (v : List FileItem) : cacheGet (cacheSet c p v) p = some v := by
  induction c with
  | nil => simp [cacheSet, cacheGet]
  | cons kv rest ih =>
    obtain ⟨k, w⟩ := kv
    by_cases h : k = p <;> simp [cacheSet, cacheGet, h, ih]

/-- C6: when the children fetch triggered by a toggle(D) expand fails, D is
left in the expanded set with no children, and the error is surfaced.  The
toggle issues the fetch; the only wired `onFolderExpand`
(`handleFolderExpand`) never rejects — on a Directory Service failure it
surfaces the error through `setError` and resolves with `[]` — so the
resumption caches the empty list and, `[]` being truthy, adds D to the
expanded set rather than collapsing it or leaving it unexpanded. -/
theorem C6_fetch_failure_expanded_childless (s : ExplorerState) (folder : FileItem)
    (hdir : folder.isDirectory = true)
    (hnexp : folder.path ∉ s.expandedFiles)
    (hnc : cacheGet s.childrenCache folder.path = none) :
    handleFolderClickSync s folder [] true = (s, true) ∧
    (handleFolderExpand none).2 = true ∧
    folder.path ∈
      (handleFolderClickResume s folder.path
        (some (handleFolderExpand none).1)).expandedFiles ∧
    cacheGet
      (handleFolderClickResume s folder.path
        (some (handleFolderExpand none).1)).childrenCache folder.path =
      some [] := by
  refine ⟨?_, rfl, ?_, ?_⟩
  · simp [handleFolderClickSync, hdir, hnexp, hnc]
  · exact mem_addPath_self _ _
  · exact cacheGet_cacheSet _ _ _

/-- Witness for C6 at the concrete empty state: the failed expand of `/r/D`
leaves it expanded and childless, with the error surfaced. -/
theorem C6_witness :
    handleFolderClickSync emptyExplorer dirD [] true = (emptyExplorer, true) ∧
    (handleFolderExpand none).2 = true ∧
    dirD.path ∈
      (handleFolderClickResume emptyExplorer dirD.path
        (some (handleFolderExpand none).1)).expandedFiles ∧
    cacheGet
      (handleFolderClickResume emptyExplorer dirD.path
        (some (handleFolderExpand none).1)).childrenCache dirD.path =
      some [] :=
  C6_fetch_failure_expanded_childless emptyExplorer dirD
    (by decide) (by decide) (by decide)

/-- C2 counterexample: dropping the directory `/root/a` onto its own
descendant `/root/a/b` is not rejected — `handleDrop` issues the Directory
Service move call `rename("/root/a", "/root/a/b/a")`. -/
theorem C2_counterexample :
    isDescendant dirA.path descB.path = true ∧
    (handleDrop dragADropB descB true).call =
      some ⟨"/root/a", "/root/a/b/a"⟩ := by
  decide

/-- C2 (amended): handleDrop rejects a drop whose target is not a directory
(issuing no Directory Service call and letting the event bubble to the root
handler) and a drop whose target equals the source path (no call, no
bubbling); in both cases nothing changes except the ephemeral drop target,
and the checks run before any call.  A target that is a descendant of the
source is not checked and not rejected. -/
theorem C2_checks_before_call (s : ExplorerState) (t : FileItem) (b : Bool) :
    (t.isDirectory = false →
        handleDrop s t b =
          { state := { s with dropTarget := none }, bubbles := true }) ∧
    (t.isDirectory = true → s.draggedItem = none →
        handleDrop s t b = { state := { s with dropTarget := none } }) ∧
    (∀ d : FileItem, t.isDirectory = true → s.draggedItem = some d →
        d.path = t.path →
        handleDrop s t b = { state := { s with dropTarget := none } }) := by
  refine ⟨?_, ?_, ?_⟩
  · intro h
    simp [handleDrop, h]
  · intro hdir h
    simp [handleDrop, hdir, h]
  · intro d hdir hd hp
    simp [handleDrop, hdir, hd, hp]

/-- Witness for C2's amended statement: dropping `/root/a` onto itself is
rejected with only the drop target cleared. -/
theorem C2_witness :
    handleDrop dragAState dirA true =
      { state := { dragAState with dropTarget := none } } :=
  (C2_checks_before_call dragAState dirA true).2.2 dirA
    (by decide) (by decide) (by decide)

/-- C9 counterexample: while dragging the directory `/root/a`, hovering its
own descendant directory `/root/a/b` sets it as the current drop target even
though legality rule 3 fails for it. -/
theorem C9_counterexample :
    isDescendant dirA.path descB.path = true ∧
    (handleDragOver dragAState descB).dropTarget = some "/root/a/b" := by
  decide

/-- C9 (amended): during a drag, hovering an Entry sets it as the current
drop target exactly when it is a directory whose path differs from the drag
source's path (rules 1 and 2, computed live); rule 3 is not checked, so a
descendant of the source can become the drop target.  Files and the source
itself never set it — the previous target is retained, not cleared. -/
theorem C9_dragover_sets_target (s : ExplorerState) (file d : FileItem)
    (hd : s.draggedItem = some d) :
    (handleDragOver s file).dropTarget =
      (if file.isDirectory = true ∧ file.path ≠ d.path then some file.path
       else s.dropTarget) ∧
    (handleDragOver s file).draggedItem = s.draggedItem ∧
    (handleDragOver s file).expandedFiles = s.expandedFiles ∧
    (handleDragOver s file).childrenCache = s.childrenCache := by
  cases hdir : file.isDirectory
  · simp [handleDragOver, hdir]
  · by_cases hp : d.path = file.path
    · simp [handleDragOver, hdir, hd, hp]
    · have hp2 : ¬ file.path = d.path := fun h => hp h.symm
      simp [handleDragOver, hdir, hd, hp, hp2]

/-- Witness for C9's amended statement: hovering the descendant `/root/a/b`
while dragging `/root/a`. -/
theorem C9_witness :
    (handleDragOver dragAState descB).dropTarget =
      (if descB.isDirectory = true ∧ descB.path ≠ dirA.path then some descB.path
       else dragAState.dropTarget) ∧
    (handleDragOver dragAState descB).draggedItem = dragAState.draggedItem ∧
    (handleDragOver dragAState descB).expandedFiles = dragAState.expandedFiles ∧
    (handleDragOver dragAState descB).childrenCache = dragAState.childrenCache :=
  C9_dragover_sets_target dragAState descB dirA (by decide)

/-- C7 counterexample: a legal move executed through the drop event itself
(`handleDrop`): `/r/sub/x.md` dropped onto `/r/dst` with both `/r/sub` (the
source's former parent) and `/r/dst` (the destination) expanded succeeds,
yet re-fetches neither folder — only the general current-directory refresh
runs. -/
theorem C7_counterexample :
    (handleDrop dragMoveState dirDst true).call =
      some ⟨"/r/sub/x.md", "/r/dst/x.md"⟩ ∧
    parentPath fileSubX.path ∈ dragMoveState.expandedFiles ∧
    dirDst.path ∈ dragMoveState.expandedFiles ∧
    (handleDrop dragMoveState dirDst true).refreshedFolders = [] ∧
    (handleDrop dragMoveState dirDst true).rootRefreshed = true := by
  decide

/-- C7 (amended): the per-folder refreshes happen only on the drag-end
fallback path: when `handleDragEnd` still holds a folder drop target and the
move succeeds, it re-fetches the source's former parent and the destination,
each exactly when expanded, and triggers the current-directory refresh; a
move completed by the drop event itself reloads neither folder. -/
theorem C7_dragend_refreshes (s : ExplorerState) (root : Option String)
    (files : List FileItem) (fetch : String → List FileItem)
    (d tf : FileItem) (t : String)
    (hdt : s.dropTarget = some t) (hne : t ≠ "__root__")
    (hdi : s.draggedItem = some d)
    (hfind : files.find? (fun f => decide (f.path = t)) = some tf)
    (hdir : tf.isDirectory = true) :
    (handleDragEnd s root files fetch true).call =
      some ⟨d.path, tf.path ++ "/" ++ baseName d.path⟩ ∧
    (handleDragEnd s root files fetch true).refreshedFolders =
      (if parentPath d.path ∈ s.expandedFiles then [parentPath d.path] else []) ++
      (if tf.path ∈ s.expandedFiles then [tf.path] else []) ∧
    (handleDragEnd s root files fetch true).rootRefreshed = true ∧
    (handleDragEnd s root files fetch true).state.draggedItem = none ∧
    (handleDragEnd s root files fetch true).state.dropTarget = none := by
  by_cases h1 : parentPath d.path ∈ s.expandedFiles <;>
    by_cases h2 : tf.path ∈ s.expandedFiles <;>
    simp [handleDragEnd, hdt, hdi, hfind, hne, hdir, reloadExpandedFolder,
      clearDrag, h1, h2]

/-- Witness for C7's amended statement on the concrete move of `/r/sub/x.md`
into `/r/dst`. -/
theorem C7_witness :
    (handleDragEnd dragMoveState (some "/r") [dirDst] (fun _ => []) true).call =
      some ⟨fileSubX.path, dirDst.path ++ "/" ++ baseName fileSubX.path⟩ ∧
    (handleDragEnd dragMoveState (some "/r") [dirDst] (fun _ => []) true).refreshedFolders =
      (if parentPath fileSubX.path ∈ dragMoveState.expandedFiles
       then [parentPath fileSubX.path] else []) ++
      (if dirDst.path ∈ dragMoveState.expandedFiles then [dirDst.path] else []) ∧
    (handleDragEnd dragMoveState (some "/r") [dirDst] (fun _ => []) true).rootRefreshed = true ∧
    (handleDragEnd dragMoveState (some "/r") [dirDst] (fun _ => []) true).state.draggedItem = none ∧
    (handleDragEnd dragMoveState (some "/r") [dirDst] (fun _ => []) true).state.dropTarget = none :=
  C7_dragend_refreshes dragMoveState (some "/r") [dirDst] (fun _ => [])
    fileSubX dirDst "/r/dst" (by decide) (by decide) (by decide) (by decide) (by decide)

/-- C10: releasing a dragged Entry over the root/background area when the
Entry's parent already equals the root path performs no move: the drop
handler returns before the Directory Service call with only the drop target
cleared, and the subsequent drag-end handler, finding no drop target, clears
the remaining drag state without issuing a call. -/
theorem C10_root_drop_noop (s : ExplorerState) (root : String) (d : FileItem)
    (files : List FileItem) (fetch : String → List FileItem) (b : Bool)
    (hd : s.draggedItem = some d)
    (hp : parentPath d.path = root) :
    handleDropOnRoot s (some root) b =
      { state := { s with dropTarget := none } } ∧
    (handleDropOnRoot s (some root) b).call = none ∧
    (handleDragEnd { s with dropTarget := none } (some root) files fetch b).call = none ∧
    (handleDragEnd { s with dropTarget := none } (some root) files fetch b).state.draggedItem
      = none ∧
    (handleDragEnd { s with dropTarget := none } (some root) files fetch b).state.dropTarget
      = none := by
  have h1 : handleDropOnRoot s (some root) b =
      { state := { s with dropTarget := none } } := by
    simp [handleDropOnRoot, hd, hp]
  refine ⟨h1, by rw [h1], ?_, ?_, ?_⟩ <;> simp [handleDragEnd, clearDrag]

/-- Witness for C10: dropping `/r/y.md`, already sitting in the root `/r`,
onto the background. -/
theorem C10_witness :
    handleDropOnRoot dragRootY (some "/r") true =
      { state := { dragRootY with dropTarget := none } } ∧
    (handleDropOnRoot dragRootY (some "/r") true).call = none ∧
    (handleDragEnd { dragRootY with dropTarget := none } (some "/r") [] (fun _ => []) true).call
      = none ∧
    (handleDragEnd { dragRootY with dropTarget := none } (some "/r") [] (fun _ => [])
        true).state.draggedItem = none ∧
    (handleDragEnd { dragRootY with dropTarget := none } (some "/r") [] (fun _ => [])
        true).state.dropTarget = none :=
  C10_root_drop_noop dragRootY "/r" fileRootY [] (fun _ => []) true
    (by decide) (by decide)

/-- C5 counterexample: a single click on directory `/r/D` followed by a
right click on it within the deferral delay fires BOTH the context-menu
action and, when the timer then elapses, the single-click toggle — the
context-menu handler does not cancel the pending timer. -/
theorem C5_counterexample :
    dispatchRun none
        [ClickEvent.click dirD, ClickEvent.contextmenu dirD, ClickEvent.timerFire] =
      (none, [SemAction.openContextMenu "/r/D", SemAction.toggleFolder "/r/D"]) ∧
    (dispatchStep (some dirD) (ClickEvent.contextmenu dirD)).1 = some dirD := by
  decide

/-- C5 (amended): a single click followed by silence past the deferral delay
fires exactly one semantic action (toggle-folder for directories,
select-file for files); a second click within the delay cancels the pending
action and the double click fires exactly one navigate-into for directories
and nothing for files; but a context-menu event leaves a pending
single-click timer running while firing the menu action, so a click followed
by a right click within the delay fires both. -/
theorem C5_click_dispatch (f : FileItem) (pending : Option FileItem) :
    dispatchRun none [ClickEvent.click f, ClickEvent.timerFire] =
      (none, [if f.isDirectory then SemAction.toggleFolder f.path
              else SemAction.selectFile f.path]) ∧
    dispatchRun none [ClickEvent.click f, ClickEvent.click f, ClickEvent.dblclick f] =
      (none, if f.isDirectory then [SemAction.navigateInto f.path] else []) ∧
    dispatchStep pending (ClickEvent.contextmenu f) =
      (pending, [SemAction.openContextMenu f.path]) := by
  refine ⟨?_, ?_, rfl⟩ <;> simp [dispatchRun, dispatchStep]

/-- C8 counterexample: with `/r/d` expanded and its children cached in the
order `[z.md (file), A (dir)]`, the displayed order keeps the children in
cache order — file `z.md` before directory `A` — whereas the sort policy
applied to that list would display `A` first: the policy is not applied to
cached children of expanded subdirectories. -/
theorem C8_counterexample :
    displayedOrder unsortedCacheState [dirSmallD] 2 =
      ["/r/d", "/r/d/z.md", "/r/d/A"] ∧
    (sortedFiles [fileZ, dirUpperA]).map FileItem.path =
      ["/r/d/A", "/r/d/z.md"] := by
  decide

/-- C8 (amended): `sortedFiles` sorts the §8 example to
`[A(dir), a(dir), b.md(file), z.md(file)]`, and in general its output is a
permutation of the input in which every directory precedes every file and,
within one group, lowercased names are lexicographically ordered; this
policy is applied only to the top-level file list — the cached children of
an expanded subdirectory are rendered in cache order, unsorted. -/
theorem C8_sort_policy (files : List FileItem) (s : ExplorerState)
    (f : FileItem) (cs : List FileItem) (fuel : Nat)
    (hcs : cacheGet s.childrenCache f.path = some cs)
    (hexp : f.path ∈ s.expandedFiles) (hne : cs ≠ []) :
    (sortedFiles exampleEntries).map FileItem.name = ["A", "a", "b.md", "z.md"] ∧
    (sortedFiles exampleEntries).map FileItem.isDirectory =
      [true, true, false, false] ∧
    (sortedFiles files).Pairwise (fun a b =>
      (a.isDirectory = true ∧ b.isDirectory = false) ∨
        (a.isDirectory = b.isDirectory ∧
          strCompare (strToLower a.name) (strToLower b.name) ≤ 0)) ∧
    List.Perm (sortedFiles files) files ∧
    renderOrder s (fuel + 1) f =
      f.path :: (cs.map (renderOrder s fuel)).flatten := by
  refine ⟨by decide, by decide, ?_, sortedFiles_perm files, ?_⟩
  · exact (pairwise_sortedFiles files).imp (fun h => fileLe_policy _ _ h)
  · simp [renderOrder, hcs, hexp, hne]

/-- Witness for C8's amended statement at the concrete unsorted-cache
state. -/
theorem C8_witness :
    renderOrder unsortedCacheState 2 dirSmallD =
      dirSmallD.path ::
        ([fileZ, dirUpperA].map (renderOrder unsortedCacheState 1)).flatten :=
  (C8_sort_policy exampleEntries unsortedCacheState dirSmallD [fileZ, dirUpperA] 1
    (by decide) (by decide) (by decide)).2.2.2.2
